import Mathlib

set_option maxRecDepth 1000000

/-!
Verification of `piton/tools/bin/riscvlib.py` (device-tree and bootrom-info
generation for OpenPiton+Ariane).

The Python source is embedded shallowly:
* `Device` models one entry of the device inventory (`devices[i]["name"]`,
  `devices[i]["base"]`, `devices[i]["length"]`); Python integers are `Nat`.
* `reg_fmt` models `_reg_fmt` (the register-field encoder); the two
  `assert` statements of `_reg_fmt` are modelled by `reg_fmt_checked`,
  which returns `none` exactly when an `AssertionError` would be raised.
* `gen_riscv_dts` models the device-tree builder; its output string is
  built from the same literal fragments as the Python format strings, and
  its two `assert` statements are modelled by returning `none`.
* `get_bootrom_info` models the banner builder; reads of environment
  variables and of external version strings are passed in as parameters
  (`Option` for the two optional variables), which is the only freedom
  taken with respect to the source.
Python `"%08x" % n` is modelled with `Nat.toDigits 16` (lower-case
hexadecimal, no leading zeros except for `0` itself, padded on the left
with `'0'` to a minimum width of 8), `"%d"` with `toString`, and `"%3d"`
with left padding by spaces to a minimum width of 3.
-/

/-- One entry of the device inventory parsed from the OpenPiton
`devices*.xml` file: the Python dict with keys `name`, `base`, `length`. -/
structure Device where
  name : String
  base : Nat
  length : Nat

/-- Python `"%08x" % n`: lower-case hexadecimal digits of `n` (at least one
digit), zero-padded on the left to a minimum width of 8. -/
def hexPad8 (n : Nat) : String :=
  ⟨List.replicate (8 - (Nat.toDigits 16 n).length) '0' ++ Nat.toDigits 16 n⟩

/-- Python `"%d" % n` for a natural number. -/
def decFmt (n : Nat) : String :=
  toString n

/-- Python `"0x%08x " % v`, the chunk `_reg_fmt` appends per emitted cell. -/
def cellFmt (v : Nat) : String :=
  "0x" ++ hexPad8 v ++ " "

/-- Body of `_reg_fmt(addrBase, addrLen, addrCells, sizeCells)`
(riscvlib.py lines 108-122), after the two `assert` statements.
`addrBase >> 32` is division by `2^32`, `addrBase & 0xFFFFFFFF` is the
remainder modulo `2^32`, and `"0x%08x " % v` is `cellFmt v`. -/
def reg_fmt (addrBase addrLen : Nat) (addrCells sizeCells : Int) : String :=
  let tmpStr := " "
  let tmpStr := if 2 ≤ addrCells then tmpStr ++ cellFmt (addrBase / 4294967296) else tmpStr
  let tmpStr := if 1 ≤ addrCells then tmpStr ++ cellFmt (addrBase % 4294967296) else tmpStr
  let tmpStr := if 2 ≤ sizeCells then tmpStr ++ cellFmt (addrLen / 4294967296) else tmpStr
  let tmpStr := if 1 ≤ sizeCells then tmpStr ++ cellFmt (addrLen % 4294967296) else tmpStr
  tmpStr

/-- `_reg_fmt` including its two `assert` statements (riscvlib.py lines
105-106): `assert addrCells >= 1 or addrCells <= 2` and
`assert sizeCells >= 0 or sizeCells <= 2`.  A failing `assert` raises
`AssertionError`, modelled by `none`. -/
def reg_fmt_checked (addrBase addrLen : Nat) (addrCells sizeCells : Int) : Option String :=
  if (1 ≤ addrCells ∨ addrCells ≤ 2) ∧ (0 ≤ sizeCells ∨ sizeCells ≤ 2) then
    some (reg_fmt addrBase addrLen addrCells sizeCells)
  else
    none

/-- The sequence of 32-bit cell values that `_reg_fmt` prints, in print
order: high half of the base (when `addrCells >= 2`), low half of the base
(when `addrCells >= 1`), high half of the length (when `sizeCells >= 2`),
low half of the length (when `sizeCells >= 1`). -/
def reg_fmt_cells (addrBase addrLen : Nat) (addrCells sizeCells : Int) : List Nat :=
  (if 2 ≤ addrCells then [addrBase / 4294967296] else []) ++
  (if 1 ≤ addrCells then [addrBase % 4294967296] else []) ++
  (if 2 ≤ sizeCells then [addrLen / 4294967296] else []) ++
  (if 1 ≤ sizeCells then [addrLen % 4294967296] else [])

/-- Concatenation of a list of strings. -/
def concatStrs : List String → String
  | [] => ""
  | s :: rest => s ++ concatStrs rest

theorem concatStrs_data (l : List String) :
    (concatStrs l).data = (l.map String.data).flatten := by
  induction l with
  | nil => rfl
  | cons s rest ih => simp [concatStrs, String.data_append, ih]

/-- The string built by `_reg_fmt` is a leading space followed by one
chunk `"0x" ++ hexPad8 v ++ " "` per printed cell value `v`. -/
theorem reg_fmt_eq_render (addrBase addrLen : Nat) (addrCells sizeCells : Int) :
    reg_fmt addrBase addrLen addrCells sizeCells =
      " " ++ concatStrs ((reg_fmt_cells addrBase addrLen addrCells sizeCells).map cellFmt) := by
  unfold reg_fmt reg_fmt_cells
  split_ifs <;>
    simp [concatStrs, String.append_assoc, String.append_empty]

/-- A lower-case hexadecimal digit character (`0`-`9` or `a`-`f`). -/
def isHexDigitCh (c : Char) : Bool :=
  (decide (48 ≤ c.toNat) && decide (c.toNat ≤ 57)) ||
  (decide (97 ≤ c.toNat) && decide (c.toNat ≤ 102))

theorem isHexDigitCh_ne_space (c : Char) (h : isHexDigitCh c = true) : c ≠ ' ' := by
  intro hc
  subst hc
  simp [isHexDigitCh] at h

theorem toDigitsCore_chars (P : Char → Prop) (hP : ∀ d, d < 16 → P (Nat.digitChar d)) :
    ∀ (f n : Nat) (ds : List Char), (∀ c ∈ ds, P c) →
      ∀ c ∈ Nat.toDigitsCore 16 f n ds, P c := by
  intro f
  induction f with
  | zero => intro n ds hds c hc; exact hds c hc
  | succ f ih =>
    intro n ds hds c hc
    rw [Nat.toDigitsCore] at hc
    by_cases h : n / 16 = 0
    · simp only [h, if_pos rfl] at hc
      rcases List.mem_cons.mp hc with h1 | h2
      · exact h1 ▸ hP _ (Nat.mod_lt _ (by norm_num))
      · exact hds c h2
    · simp only [if_neg h] at hc
      refine ih (n / 16) (Nat.digitChar (n % 16) :: ds) ?_ c hc
      intro d hd
      rcases List.mem_cons.mp hd with h1 | h2
      · exact h1 ▸ hP _ (Nat.mod_lt _ (by norm_num))
      · exact hds d h2

theorem toDigits16_chars (n : Nat) :
    ∀ c ∈ Nat.toDigits 16 n, isHexDigitCh c = true := by
  have hP : ∀ d, d < 16 → isHexDigitCh (Nat.digitChar d) = true := by decide
  exact toDigitsCore_chars (fun c => isHexDigitCh c = true) hP (n + 1) n []
    (by intro c hc; cases hc)

theorem toDigits16_length_le (n : Nat) (h : n < 4294967296) :
    (Nat.toDigits 16 n).length ≤ 8 := by
  have h16 : n < 16 ^ 8 := by
    have : (16 : Nat) ^ 8 = 4294967296 := by norm_num
    omega
  exact Nat.toDigitsCore_length 16 (by norm_num) (n + 1) n 8 h16 (by norm_num)

theorem hexPad8_data (n : Nat) :
    (hexPad8 n).data =
      List.replicate (8 - (Nat.toDigits 16 n).length) '0' ++ Nat.toDigits 16 n := rfl

theorem hexPad8_chars (n : Nat) :
    ∀ c ∈ (hexPad8 n).data, isHexDigitCh c = true := by
  intro c hc
  rw [hexPad8_data] at hc
  rcases List.mem_append.mp hc with h1 | h2
  · rw [List.eq_of_mem_replicate h1]; decide
  · exact toDigits16_chars n c h2

theorem hexPad8_length (n : Nat) (h : n < 4294967296) :
    (hexPad8 n).data.length = 8 := by
  rw [hexPad8_data]
  have := toDigits16_length_le n h
  simp [List.length_append, List.length_replicate]
  omega

/-- Splits a character list into its maximal runs of non-space characters,
accumulating the (reversed) current run in `acc`. -/
def wordsAux : List Char → List Char → List (List Char)
  | [], acc => if acc = [] then [] else [acc.reverse]
  | c :: cs, acc =>
    if c = ' ' then
      if acc = [] then wordsAux cs [] else acc.reverse :: wordsAux cs []
    else
      wordsAux cs (c :: acc)

/-- The space-separated tokens of a string: its maximal runs of non-space
characters, in order. -/
def spaceTokens (s : String) : List String :=
  (wordsAux s.data []).map List.asString

theorem wordsAux_nil (acc : List Char) :
    wordsAux [] acc = if acc = [] then [] else [acc.reverse] := rfl

theorem wordsAux_cons (c : Char) (cs acc : List Char) :
    wordsAux (c :: cs) acc =
      if c = ' ' then
        if acc = [] then wordsAux cs [] else acc.reverse :: wordsAux cs []
      else
        wordsAux cs (c :: acc) := rfl

theorem wordsAux_token (t : List Char) (ht : ∀ c ∈ t, c ≠ ' ') :
    ∀ (cs acc : List Char),
      wordsAux (t ++ ' ' :: cs) acc =
        if acc.reverse ++ t = [] then wordsAux cs []
        else (acc.reverse ++ t) :: wordsAux cs [] := by
  induction t with
  | nil =>
    intro cs acc
    rw [List.nil_append, List.append_nil, wordsAux_cons, if_pos rfl]
    rcases Decidable.em (acc = []) with h | h
    · subst h
      rw [if_pos rfl, if_pos List.reverse_nil]
    · rw [if_neg h, if_neg (by simp [h])]
  | cons c t ih =>
    intro cs acc
    have hc : c ≠ ' ' := ht c (List.mem_cons_self c t)
    have ht' : ∀ c ∈ t, c ≠ ' ' := fun d hd => ht d (List.mem_cons_of_mem c hd)
    rw [List.cons_append, wordsAux_cons, if_neg hc, ih ht' cs (c :: acc)]
    have hrw : (c :: acc).reverse ++ t = acc.reverse ++ c :: t := by
      simp [List.reverse_cons, List.append_assoc]
    rw [hrw]

theorem wordsAux_leading_space (l : List Char) :
    wordsAux (' ' :: l) [] = wordsAux l [] := by
  simp [wordsAux]

theorem wordsAux_render (ts : List (List Char))
    (h : ∀ t ∈ ts, t ≠ [] ∧ ∀ c ∈ t, c ≠ ' ') :
    wordsAux (ts.map (fun t => t ++ [' '])).flatten [] = ts := by
  induction ts with
  | nil => rfl
  | cons t rest ih =>
    have hne : t ≠ [] := (h t (List.mem_cons_self t rest)).1
    have hsp : ∀ c ∈ t, c ≠ ' ' := (h t (List.mem_cons_self t rest)).2
    have hrest : ∀ u ∈ rest, u ≠ [] ∧ ∀ c ∈ u, c ≠ ' ' :=
      fun u hu => h u (List.mem_cons_of_mem t hu)
    have harr : ((t ++ [' ']) :: rest.map (fun u => u ++ [' '])).flatten =
        t ++ ' ' :: (rest.map (fun u => u ++ [' '])).flatten := by
      simp [List.flatten_cons, List.append_assoc]
    rw [List.map_cons, harr, wordsAux_token t hsp _ [], List.reverse_nil, List.nil_append,
      if_neg hne, ih hrest]

/-- Tokenisation of a string of the shape produced by `_reg_fmt`: a leading
space followed by space-terminated chunks whose bodies contain no space. -/
theorem spaceTokens_render (ts : List String)
    (h : ∀ t ∈ ts, t.data ≠ [] ∧ ∀ c ∈ t.data, c ≠ ' ') :
    spaceTokens (" " ++ concatStrs (ts.map (fun t => t ++ " "))) = ts := by
  unfold spaceTokens
  have hmap : (ts.map (fun t => t ++ " ")).map String.data =
      (ts.map String.data).map (fun l => l ++ [' ']) := by
    rw [List.map_map, List.map_map]
    refine List.map_congr_left fun t _ => ?_
    show (t ++ " ").data = t.data ++ [' ']
    rw [String.data_append]
  have hdata : (" " ++ concatStrs (ts.map (fun t => t ++ " "))).data =
      ' ' :: ((ts.map String.data).map (fun t => t ++ [' '])).flatten := by
    rw [String.data_append, concatStrs_data, hmap]
    rfl
  rw [hdata, wordsAux_leading_space,
    wordsAux_render (ts.map String.data)
      (by intro u hu
          rcases List.mem_map.mp hu with ⟨t, ht, rfl⟩
          exact h t ht)]
  rw [List.map_map]
  have : (List.asString ∘ String.data) = id := by
    funext t
    rfl
  rw [this, List.map_id]

theorem reg_fmt_cells_lt (b l : Nat) (a s : Int)
    (hb : b < 18446744073709551616) (hl : l < 18446744073709551616) :
    ∀ v ∈ reg_fmt_cells b l a s, v < 4294967296 := by
  intro v hv
  have hmem : v = b / 4294967296 ∨ v = b % 4294967296 ∨
      v = l / 4294967296 ∨ v = l % 4294967296 := by
    unfold reg_fmt_cells at hv
    split_ifs at hv <;> simp at hv <;> tauto
  rcases hmem with rfl | rfl | rfl | rfl <;> omega

theorem token_shape (v : Nat) :
    ("0x" ++ hexPad8 v).data = '0' :: 'x' :: (hexPad8 v).data := by
  rw [String.data_append]
  rfl

theorem token_no_space (v : Nat) :
    ("0x" ++ hexPad8 v).data ≠ [] ∧ ∀ c ∈ ("0x" ++ hexPad8 v).data, c ≠ ' ' := by
  rw [token_shape]
  refine ⟨by simp, ?_⟩
  intro c hc
  rcases List.mem_cons.mp hc with rfl | hc
  · decide
  rcases List.mem_cons.mp hc with rfl | hc
  · decide
  · exact isHexDigitCh_ne_space c (hexPad8_chars v c hc)

theorem spaceTokens_reg_fmt (b l : Nat) (a s : Int) :
    spaceTokens (reg_fmt b l a s) =
      (reg_fmt_cells b l a s).map (fun v => "0x" ++ hexPad8 v) := by
  have hrender : reg_fmt b l a s =
      " " ++ concatStrs (((reg_fmt_cells b l a s).map
        (fun v => "0x" ++ hexPad8 v)).map (fun t => t ++ " ")) := by
    rw [reg_fmt_eq_render]
    congr 1
    rw [List.map_map]
    rfl
  rw [hrender, spaceTokens_render]
  intro t ht
  rcases List.mem_map.mp ht with ⟨v, _, rfl⟩
  exact token_no_space v

/-- Claim C2: for `addrCells, sizeCells` in the set 0, 1, 2 and 64-bit
`base`/`length`, the string `_reg_fmt` returns contains exactly
`addrCells + sizeCells` hexadecimal tokens (zero when both are 0), each of
the form `0x` followed by exactly 8 lower-case hex digits, and the tokens
are, in order: the upper 32 bits of the base (only when `addrCells = 2`),
the lower 32 bits of the base (when `addrCells >= 1`), the upper 32 bits of
the length (only when `sizeCells = 2`), and the lower 32 bits of the length
(when `sizeCells >= 1`). -/
theorem claim_C2_reg_fmt_tokens (b l : Nat) (a s : Int)
    (hb : b < 18446744073709551616) (hl : l < 18446744073709551616)
    (ha : a = 0 ∨ a = 1 ∨ a = 2) (hs : s = 0 ∨ s = 1 ∨ s = 2) :
    spaceTokens (reg_fmt b l a s) =
      (reg_fmt_cells b l a s).map (fun v => "0x" ++ hexPad8 v) ∧
    (spaceTokens (reg_fmt b l a s)).length = (a + s).toNat ∧
    reg_fmt_cells b l a s =
      (if a = 2 then [b / 4294967296] else []) ++
      (if 1 ≤ a then [b % 4294967296] else []) ++
      (if s = 2 then [l / 4294967296] else []) ++
      (if 1 ≤ s then [l % 4294967296] else []) ∧
    ∀ t ∈ spaceTokens (reg_fmt b l a s),
      t.data.length = 10 ∧ t.data.take 2 = ['0', 'x'] ∧
      ∀ c ∈ t.data.drop 2, isHexDigitCh c = true := by
  refine ⟨spaceTokens_reg_fmt b l a s, ?_, ?_, ?_⟩
  · rw [spaceTokens_reg_fmt b l a s, List.length_map]
    rcases ha with rfl | rfl | rfl <;> rcases hs with rfl | rfl | rfl <;>
      simp [reg_fmt_cells]
  · rcases ha with rfl | rfl | rfl <;> rcases hs with rfl | rfl | rfl <;>
      simp [reg_fmt_cells]
  · intro t ht
    rw [spaceTokens_reg_fmt b l a s] at ht
    rcases List.mem_map.mp ht with ⟨v, hv, rfl⟩
    have hv32 : v < 4294967296 := reg_fmt_cells_lt b l a s hb hl v hv
    refine ⟨?_, ?_, ?_⟩
    · rw [token_shape]
      simp [hexPad8_length v hv32]
    · rw [token_shape]
      rfl
    · intro c hc
      rw [token_shape] at hc
      exact hexPad8_chars v c hc

/-- Witness for C2 at the spec's example input
`encode(0x80000000, 0x10000000, 2, 2)`. -/
theorem claim_C2_witness :
    spaceTokens (reg_fmt 2147483648 268435456 2 2) =
      (reg_fmt_cells 2147483648 268435456 2 2).map (fun v => "0x" ++ hexPad8 v) ∧
    (spaceTokens (reg_fmt 2147483648 268435456 2 2)).length = ((2 : Int) + 2).toNat ∧
    reg_fmt_cells 2147483648 268435456 2 2 =
      (if (2 : Int) = 2 then [2147483648 / 4294967296] else []) ++
      (if (1 : Int) ≤ 2 then [2147483648 % 4294967296] else []) ++
      (if (2 : Int) = 2 then [268435456 / 4294967296] else []) ++
      (if (1 : Int) ≤ 2 then [268435456 % 4294967296] else []) ∧
    ∀ t ∈ spaceTokens (reg_fmt 2147483648 268435456 2 2),
      t.data.length = 10 ∧ t.data.take 2 = ['0', 'x'] ∧
      ∀ c ∈ t.data.drop 2, isHexDigitCh c = true :=
  claim_C2_reg_fmt_tokens 2147483648 268435456 2 2 (by norm_num) (by norm_num)
    (by norm_num) (by norm_num)

/-- Claim C3 counterexample: on the spec's own example the returned string
is not `" 0x00000000 0x80000000 0x00000000 0x10000000"`; `_reg_fmt` also
appends a trailing space after the last value. -/
theorem claim_C3_counterexample :
    reg_fmt 2147483648 268435456 2 2 ≠
      " 0x00000000 0x80000000 0x00000000 0x10000000" := by
  decide

/-- Claim C3 amended: every emitted cell is rendered as `"0x%08x "`, i.e.
each value is followed by one space, so consecutive values are separated by
a single space, there is a leading space before the first value, and there
is additionally a single trailing space after the last value; on the
example input the result is
`" 0x00000000 0x80000000 0x00000000 0x10000000 "` (note the final space). -/
theorem claim_C3_amended_spacing :
    (∀ (b l : Nat) (a s : Int),
      reg_fmt b l a s = " " ++ concatStrs ((reg_fmt_cells b l a s).map cellFmt)) ∧
    reg_fmt 2147483648 268435456 2 2 =
      " 0x00000000 0x80000000 0x00000000 0x10000000 " :=
  ⟨reg_fmt_eq_render, by decide⟩

/-- Claim C6 (code bug): the two `assert`s in `_reg_fmt` read
`addrCells >= 1 or addrCells <= 2` and `sizeCells >= 0 or sizeCells <= 2`;
each disjunction holds for every integer, so the asserts are vacuous and
the encoder returns a string for every cell count, in particular for
`addrCells = 3, sizeCells = -1` where the spec demands a fatal error. -/
theorem claim_C6_assert_vacuous :
    (∀ (b l : Nat) (a s : Int),
      reg_fmt_checked b l a s = some (reg_fmt b l a s)) ∧
    reg_fmt_checked 2147483648 268435456 3 (-1) =
      some (reg_fmt 2147483648 268435456 3 (-1)) := by
  have h : ∀ (b l : Nat) (a s : Int),
      reg_fmt_checked b l a s = some (reg_fmt b l a s) := by
    intro b l a s
    unfold reg_fmt_checked
    rw [if_pos ⟨by omega, by omega⟩]
  exact ⟨h, h 2147483648 268435456 3 (-1)⟩

/-! ### `gen_riscv_dts` (riscvlib.py lines 124-327)

The builder is embedded as a function to `Option String`: `none` models an
`AssertionError` from either `assert nCpus >= 1` (line 126) or the final
consistency check `assert ioDeviceNr-1 == numIrqs` (line 324); `some`
carries the generated device-tree text (the file write on line 326 is an
external effect and not modelled).  Literal braces of the Python format
strings are written with the escapes `\x7b` and `\x7d`. -/

/-- Header of the device tree (lines 135-163), with `timeStamp` and
`timeBaseFreq` substituted for `%s` and `%d`. -/
def dtsHeader (timeStamp : String) (timeBaseFreq : Nat) : String :=
  "// DTS generated with gen_riscv_dts(...)\n// OpenPiton + Ariane framework\n// Date: " ++ timeStamp ++
  "\n\n/dts-v1/;\n\n/ \x7b\n    #address-cells = <2>;\n    #size-cells = <2>;\n    u-boot,dm-pre-reloc;\n    compatible = \"openpiton,cva6platform\";\n\n    chosen \x7b\n    u-boot,dm-pre-reloc;\n    stdout-path = \"uart0:115200\";\n    \x7d;\n\n    aliases \x7b\n        u-boot,dm-pre-reloc;\n        console = &uart0;\n        serial0 = &uart0;\n    \x7d;\n\n    cpus \x7b\n        #address-cells = <1>;\n        #size-cells = <0>;\n        u-boot,dm-pre-reloc;\n        timebase-frequency = <" ++
  decFmt timeBaseFreq ++ ">;\n    "

/-- One CPU node (lines 166-184), `'''...''' % (k,k,cpuFreq,k,k)`. -/
def cpuNode (cpuFreq k : Nat) : String :=
  "\n        CPU" ++ decFmt k ++ ": cpu@" ++ decFmt k ++
  " \x7b\n            clock-frequency = <" ++ decFmt cpuFreq ++
  ">;\n            u-boot,dm-pre-reloc;\n            device_type = \"cpu\";\n            reg = <" ++
  decFmt k ++
  ">;\n            status = \"okay\";\n            compatible = \"openhwgroup, cva6\", \"riscv\";\n            riscv,isa = \"rv64imafdc\";\n            mmu-type = \"riscv,sv39\";\n            tlb-split;\n            // HLIC - hart local interrupt controller\n            CPU" ++
  decFmt k ++
  "_intc: interrupt-controller \x7b\n                #interrupt-cells = <1>;\n                interrupt-controller;\n                compatible = \"riscv,cpu-intc\";\n            \x7d;\n        \x7d;\n        "

/-- Text closing the `cpus` block (lines 186-188). -/
def cpusClose : String :=
  "\n    \x7d;\n    "

/-- One memory node (lines 196-202). -/
def memNode (addrBase addrLen : Nat) : String :=
  "\n    memory@" ++ hexPad8 addrBase ++
  " \x7b\n        u-boot,dm-pre-reloc;\n        device_type = \"memory\";\n        reg = <" ++
  reg_fmt addrBase addrLen 2 2 ++ ">;\n    \x7d;\n            "

/-- One iteration of the CLINT `interrupts-extended` loop (line 226):
`"&CPU%d_intc 3 &CPU%d_intc 7 " % (k,k)`. -/
def clintRef (k : Nat) : String :=
  "&CPU" ++ decFmt k ++ "_intc 3 &CPU" ++ decFmt k ++ "_intc 7 "

/-- The CLINT interrupt-routing text: the loop of line 225-226. -/
def clintRouting (nCpus : Nat) : String :=
  (List.range nCpus).foldl (fun s k => s ++ clintRef k) ""

/-- One CLINT node (lines 220-231). -/
def clintNode (nCpus addrBase addrLen : Nat) : String :=
  "\n        clint@" ++ hexPad8 addrBase ++
  " \x7b\n            u-boot,dm-pre-reloc;\n            compatible = \"riscv,clint0\";\n            interrupts-extended = <" ++
  clintRouting nCpus ++ ">;\n            reg = <" ++ reg_fmt addrBase addrLen 2 2 ++
  ">;\n            reg-names = \"control\";\n        \x7d;\n            "

/-- One iteration of the PLIC `interrupts-extended` loop (line 245):
`"&CPU%d_intc 11 &CPU%d_intc 9 " % (k,k)`. -/
def plicRef (k : Nat) : String :=
  "&CPU" ++ decFmt k ++ "_intc 11 &CPU" ++ decFmt k ++ "_intc 9 "

/-- The PLIC interrupt-routing text: the loop of line 244-245. -/
def plicRouting (nCpus : Nat) : String :=
  (List.range nCpus).foldl (fun s k => s ++ plicRef k) ""

/-- One PLIC node (lines 236-251); `nIrqs` is substituted into
`riscv,ndev = <%d>`. -/
def plicNode (nCpus nIrqs addrBase addrLen : Nat) : String :=
  "\n        PLIC0: plic@" ++ hexPad8 addrBase ++
  " \x7b\n            u-boot,dm-pre-reloc;\n            #address-cells = <0>;\n            #interrupt-cells = <1>;\n            compatible = \"riscv,plic0\";\n            interrupt-controller;\n            interrupts-extended = <" ++
  plicRouting nCpus ++ ">;\n            reg = <" ++ reg_fmt addrBase addrLen 2 2 ++
  ">;\n            riscv,max-priority = <7>;\n            riscv,ndev = <" ++ decFmt nIrqs ++
  ">;\n        \x7d;\n            "

/-- One UART node (lines 258-269); `ioDeviceNr` is the interrupt index
substituted into `interrupts = <%d>`. -/
def uartNode (periphFreq addrBase addrLen ioDeviceNr : Nat) : String :=
  "\n        uart0: uart@" ++ hexPad8 addrBase ++
  " \x7b\n            u-boot,dm-pre-reloc;\n            compatible = \"ns16550\";\n            reg = <" ++
  reg_fmt addrBase addrLen 2 2 ++ ">;\n            clock-frequency = <" ++ decFmt periphFreq ++
  ">;\n            current-speed = <115200>;\n            interrupt-parent = <&PLIC0>;\n            interrupts = <" ++
  decFmt ioDeviceNr ++
  ">;\n            reg-shift = <0>; // regs are spaced on 8 bit boundary (modified from Xilinx UART16550 to be ns16550 compatible)\n        \x7d;\n            "

/-- One SD-card node (lines 276-283). -/
def sdNode (addrBase addrLen : Nat) : String :=
  "\n        sdhci_0: sdhci@" ++ hexPad8 addrBase ++
  " \x7b\n            u-boot,dm-pre-reloc;\n            status = \"okay\";\n            compatible = \"openpiton,piton-mmc\";\n            reg = <" ++
  reg_fmt addrBase addrLen 2 2 ++ ">;\n        \x7d;\n            "

/-- One Ethernet node (lines 289-316); `ioDeviceNr` is the interrupt index
substituted into `interrupts = <%d>`. -/
def netNode (addrBase addrLen ioDeviceNr : Nat) : String :=
  "\n        eth: ethernet@" ++ hexPad8 addrBase ++
  " \x7b\n            compatible = \"xlnx,xps-ethernetlite-1.00.a\";\n            device_type = \"network\";\n            reg = <" ++
  reg_fmt addrBase addrLen 2 2 ++
  ">;\n            interrupt-parent = <&PLIC0>;\n            interrupts = <" ++ decFmt ioDeviceNr ++
  ">;\n            local-mac-address = [ 00 18 3E 02 E3 E5 ];\n            phy-handle = <&phy0>;\n            xlnx,duplex = <0x1>;\n            xlnx,include-global-buffers = <0x1>;\n            xlnx,include-internal-loopback = <0x0>;\n            xlnx,include-mdio = <0x1>;\n            xlnx,rx-ping-pong = <0x1>;\n            xlnx,s-axi-id-width = <0x1>;\n            xlnx,tx-ping-pong = <0x1>;\n            xlnx,use-internal = <0x0>;\n            axi_ethernetlite_0_mdio: mdio \x7b\n                #address-cells = <1>;\n                #size-cells = <0>;\n                phy0: phy@1 \x7b\n                    compatible = \"ethernet-phy-id001C.C915\";\n                    device_type = \"ethernet-phy\";\n                    reg = <1>;\n                \x7d;\n            \x7d;\n        \x7d;\n            "

/-- Text closing the root node (lines 319-321). -/
def dtsFooter : String :=
  "\n\x7d;\n    "

/-- `devWithIrq = ["uart", "net"]` (line 207). -/
def devWithIrq : List String :=
  ["uart", "net"]

/-- The interrupt-source counting pass (lines 206-210): the number of
devices whose name is in `devWithIrq`. -/
def numIrqs (devices : List Device) : Nat :=
  devices.foldl (fun n d => if devWithIrq.contains d.name then n + 1 else n) 0

/-- The UART-base extraction pass (lines 129-132): base address of the last
device named `uart`, defaulting to the sentinel `0xDEADBEEF`. -/
def uartBaseOf (devices : List Device) : Nat :=
  devices.foldl (fun b d => if d.name = "uart" then d.base else b) 3735928559

/-- One iteration of the peripheral emission loop (lines 215-317): the
running state is the pair of the accumulated text and `ioDeviceNr`. -/
def periphStep (nCpus periphFreq nIrqs : Nat) (st : String × Nat) (d : Device) : String × Nat :=
  let st := if d.name = "ariane_clint" then (st.1 ++ clintNode nCpus d.base d.length, st.2) else st
  let st := if d.name = "ariane_plic" then (st.1 ++ plicNode nCpus nIrqs d.base d.length, st.2) else st
  let st := if d.name = "uart" then (st.1 ++ uartNode periphFreq d.base d.length st.2, st.2 + 1) else st
  let st := if d.name = "sd" then (st.1 ++ sdNode d.base d.length, st.2) else st
  let st := if d.name = "net" then (st.1 ++ netNode d.base d.length st.2, st.2 + 1) else st
  st

/-- `gen_riscv_dts(devices, nCpus, cpuFreq, timeBaseFreq, periphFreq, ...)`
(lines 124-327).  `none` models an `AssertionError` (from `assert nCpus >= 1`
or from the final `assert ioDeviceNr-1 == numIrqs`); `some` carries the
generated text.  The extracted `uartBase` is computed exactly as in the
source (and, exactly as in the source, never used afterwards). -/
def gen_riscv_dts (devices : List Device) (nCpus cpuFreq timeBaseFreq periphFreq : Nat)
    (timeStamp : String) : Option String :=
  if 1 ≤ nCpus then
    let _uartBase := uartBaseOf devices
    let tmpStr := dtsHeader timeStamp timeBaseFreq
    let tmpStr := (List.range nCpus).foldl (fun s k => s ++ cpuNode cpuFreq k) tmpStr
    let tmpStr := tmpStr ++ cpusClose
    let tmpStr := devices.foldl
      (fun s d => if d.name = "mem" then s ++ memNode d.base d.length else s) tmpStr
    let nIrqs := numIrqs devices
    let st := devices.foldl (periphStep nCpus periphFreq nIrqs) (tmpStr, 1)
    let tmpStr := st.1 ++ dtsFooter
    if st.2 - 1 = nIrqs then some tmpStr else none
  else
    none

/-- Tag recording which branch of the peripheral emission loop produced a
chunk; the `uart` and `net` tags record the interrupt index (`ioDeviceNr`)
assigned to the emitted node. -/
inductive PeriphTag where
  | clint : PeriphTag
  | plic : PeriphTag
  | uart : Nat → PeriphTag
  | sd : PeriphTag
  | net : Nat → PeriphTag
deriving DecidableEq

/-- The interrupt index a chunk received, if its branch assigns one. -/
def assignedIrqIdx : PeriphTag × String → Option Nat
  | (PeriphTag.uart i, _) => some i
  | (PeriphTag.net i, _) => some i
  | _ => none

/-- The chunks emitted by the peripheral loop (lines 215-317) in order,
tagged with the producing branch, when the loop starts with
`ioDeviceNr = io`.  The branch conditions are exactly the five `if`s of the
loop body (their conditions are mutually exclusive, so the sequential `if`s
of the source and this `if`/`else` chain agree; see `periphFold_eq`). -/
def periphNodes (nCpus periphFreq nIrqs : Nat) : List Device → Nat → List (PeriphTag × String)
  | [], _ => []
  | d :: ds, io =>
    if d.name = "ariane_clint" then
      (PeriphTag.clint, clintNode nCpus d.base d.length) ::
        periphNodes nCpus periphFreq nIrqs ds io
    else if d.name = "ariane_plic" then
      (PeriphTag.plic, plicNode nCpus nIrqs d.base d.length) ::
        periphNodes nCpus periphFreq nIrqs ds io
    else if d.name = "uart" then
      (PeriphTag.uart io, uartNode periphFreq d.base d.length io) ::
        periphNodes nCpus periphFreq nIrqs ds (io + 1)
    else if d.name = "sd" then
      (PeriphTag.sd, sdNode d.base d.length) ::
        periphNodes nCpus periphFreq nIrqs ds io
    else if d.name = "net" then
      (PeriphTag.net io, netNode d.base d.length io) ::
        periphNodes nCpus periphFreq nIrqs ds (io + 1)
    else
      periphNodes nCpus periphFreq nIrqs ds io

/-- The text the memory loop (lines 192-202) appends: one `memory@` node
per device named `mem`, in inventory order. -/
def memNodes : List Device → String
  | [] => ""
  | d :: ds => (if d.name = "mem" then memNode d.base d.length else "") ++ memNodes ds

/-- The text the CPU loop (lines 165-184) appends: one CPU node per core
index `0, ..., nCpus-1`, in ascending order. -/
def cpusSection (nCpus cpuFreq : Nat) : String :=
  concatStrs ((List.range nCpus).map (cpuNode cpuFreq))

theorem foldl_append_concat {α : Type} (g : α → String) (l : List α) :
    ∀ s : String, l.foldl (fun s x => s ++ g x) s = s ++ concatStrs (l.map g) := by
  induction l with
  | nil => intro s; simp [concatStrs, String.append_empty]
  | cons a l ih =>
    intro s
    rw [List.foldl_cons, ih, List.map_cons]
    simp [concatStrs, String.append_assoc]

theorem mem_fold_eq (devices : List Device) :
    ∀ s : String,
      devices.foldl (fun s d => if d.name = "mem" then s ++ memNode d.base d.length else s) s =
        s ++ memNodes devices := by
  induction devices with
  | nil => intro s; simp [memNodes, String.append_empty]
  | cons d ds ih =>
    intro s
    rw [List.foldl_cons]
    by_cases h : d.name = "mem"
    · rw [if_pos h, ih]
      simp [memNodes, h, String.append_assoc]
    · rw [if_neg h, ih]
      simp [memNodes, h, String.empty_append]


theorem irq_count_fold (ds : List Device) :
    ∀ k : Nat,
      ds.foldl (fun n d => if devWithIrq.contains d.name then n + 1 else n) k =
        k + ds.foldl (fun n d => if devWithIrq.contains d.name then n + 1 else n) 0 := by
  induction ds with
  | nil => intro k; simp
  | cons d ds ih =>
    intro k
    rw [List.foldl_cons, List.foldl_cons, ih,
      ih (if devWithIrq.contains d.name then 0 + 1 else 0)]
    by_cases h : devWithIrq.contains d.name
    · rw [if_pos h, if_pos h]
      omega
    · rw [if_neg h, if_neg h]
      omega

theorem numIrqs_fold (devices : List Device) :
    ∀ k : Nat,
      devices.foldl (fun n d => if devWithIrq.contains d.name then n + 1 else n) k =
        k + numIrqs devices := by
  intro k
  unfold numIrqs
  exact irq_count_fold devices k

theorem numIrqs_cons (d : Device) (ds : List Device) :
    numIrqs (d :: ds) = (if devWithIrq.contains d.name then (1 : Nat) else 0) + numIrqs ds := by
  unfold numIrqs
  rw [List.foldl_cons, irq_count_fold]

/-- The peripheral loop started in state `(s, io)` appends exactly the
chunks of `periphNodes` and advances `ioDeviceNr` by one per device named
`uart` or `net`. -/
theorem periphFold_eq (nCpus periphFreq nIrqs : Nat) (devices : List Device) :
    ∀ (s : String) (io : Nat),
      devices.foldl (periphStep nCpus periphFreq nIrqs) (s, io) =
        (s ++ concatStrs ((periphNodes nCpus periphFreq nIrqs devices io).map Prod.snd),
          io + numIrqs devices) := by
  induction devices with
  | nil =>
    intro s io
    simp [periphNodes, concatStrs, String.append_empty, numIrqs]
  | cons d ds ih =>
    intro s io
    rw [List.foldl_cons]
    have hnum := numIrqs_cons d ds
    by_cases h1 : d.name = "ariane_clint"
    · rw [show periphStep nCpus periphFreq nIrqs (s, io) d =
          (s ++ clintNode nCpus d.base d.length, io) from by simp [periphStep, h1], ih]
      rw [h1] at hnum
      simp [devWithIrq] at hnum
      simp [periphNodes, h1, concatStrs, String.append_assoc, hnum]
    · by_cases h2 : d.name = "ariane_plic"
      · rw [show periphStep nCpus periphFreq nIrqs (s, io) d =
            (s ++ plicNode nCpus nIrqs d.base d.length, io) from by simp [periphStep, h2], ih]
        rw [h2] at hnum
        simp [devWithIrq] at hnum
        simp [periphNodes, h1, h2, concatStrs, String.append_assoc, hnum]
      · by_cases h3 : d.name = "uart"
        · rw [show periphStep nCpus periphFreq nIrqs (s, io) d =
              (s ++ uartNode periphFreq d.base d.length io, io + 1) from by
                simp [periphStep, h3], ih]
          rw [h3] at hnum
          simp [devWithIrq] at hnum
          simp [periphNodes, h1, h2, h3, concatStrs, String.append_assoc, hnum]
          omega
        · by_cases h4 : d.name = "sd"
          · rw [show periphStep nCpus periphFreq nIrqs (s, io) d =
                (s ++ sdNode d.base d.length, io) from by simp [periphStep, h4], ih]
            rw [h4] at hnum
            simp [devWithIrq] at hnum
            simp [periphNodes, h1, h2, h3, h4, concatStrs, String.append_assoc, hnum]
          · by_cases h5 : d.name = "net"
            · rw [show periphStep nCpus periphFreq nIrqs (s, io) d =
                  (s ++ netNode d.base d.length io, io + 1) from by
                    simp [periphStep, h5], ih]
              rw [h5] at hnum
              simp [devWithIrq] at hnum
              simp [periphNodes, h1, h2, h3, h4, h5, concatStrs, String.append_assoc, hnum]
              omega
            · rw [show periphStep nCpus periphFreq nIrqs (s, io) d = (s, io) from by
                  simp [periphStep, h1, h2, h3, h4, h5], ih]
              have hc : devWithIrq.contains d.name = false := by
                simp [devWithIrq, h3, h5]
              rw [hc] at hnum
              simp at hnum
              simp [periphNodes, h1, h2, h3, h4, h5, hnum]

/-- The device-tree text `gen_riscv_dts` generates, assembled from its
sections: header, CPU nodes, memory nodes, peripheral chunks, footer. -/
def dtsRender (devices : List Device) (nCpus cpuFreq timeBaseFreq periphFreq : Nat)
    (timeStamp : String) : String :=
  dtsHeader timeStamp timeBaseFreq ++ cpusSection nCpus cpuFreq ++ cpusClose ++
    memNodes devices ++
    concatStrs ((periphNodes nCpus periphFreq (numIrqs devices) devices 1).map Prod.snd) ++
    dtsFooter

/-- For every inventory and every `nCpus >= 1`, `gen_riscv_dts` reaches the
end of its body with `ioDeviceNr - 1 = numIrqs`, so the final consistency
`assert` passes and the generated text is returned. -/
theorem gen_riscv_dts_eq (devices : List Device)
    (nCpus cpuFreq timeBaseFreq periphFreq : Nat) (timeStamp : String) (h : 1 ≤ nCpus) :
    gen_riscv_dts devices nCpus cpuFreq timeBaseFreq periphFreq timeStamp =
      some (dtsRender devices nCpus cpuFreq timeBaseFreq periphFreq timeStamp) := by
  unfold gen_riscv_dts
  rw [if_pos h]
  simp only [foldl_append_concat, mem_fold_eq, periphFold_eq]
  rw [if_pos (by omega)]
  unfold dtsRender cpusSection
  simp [String.append_assoc]

/-- The interrupt indices assigned by the peripheral loop started with
counter `io` are exactly `io, io+1, ..., io + numIrqs - 1`, in order. -/
theorem periphNodes_irqIdx (nCpus periphFreq nIrqs : Nat) (devices : List Device) :
    ∀ io : Nat,
      (periphNodes nCpus periphFreq nIrqs devices io).filterMap assignedIrqIdx =
        List.range' io (numIrqs devices) := by
  induction devices with
  | nil => intro io; simp [periphNodes, numIrqs]
  | cons d ds ih =>
    intro io
    have hnum := numIrqs_cons d ds
    by_cases h1 : d.name = "ariane_clint"
    · rw [h1] at hnum
      simp [devWithIrq] at hnum
      simp [periphNodes, h1, assignedIrqIdx, hnum, ih]
    · by_cases h2 : d.name = "ariane_plic"
      · rw [h2] at hnum
        simp [devWithIrq] at hnum
        simp [periphNodes, h1, h2, assignedIrqIdx, hnum, ih]
      · by_cases h3 : d.name = "uart"
        · rw [h3] at hnum
          simp [devWithIrq] at hnum
          rw [show numIrqs (d :: ds) = numIrqs ds + 1 from by omega, List.range'_succ]
          simp [periphNodes, h1, h2, h3, assignedIrqIdx, ih]
        · by_cases h4 : d.name = "sd"
          · rw [h4] at hnum
            simp [devWithIrq] at hnum
            simp [periphNodes, h1, h2, h3, h4, assignedIrqIdx, hnum, ih]
          · by_cases h5 : d.name = "net"
            · rw [h5] at hnum
              simp [devWithIrq] at hnum
              rw [show numIrqs (d :: ds) = numIrqs ds + 1 from by omega, List.range'_succ]
              simp [periphNodes, h1, h2, h3, h4, h5, assignedIrqIdx, ih]
            · have hc : devWithIrq.contains d.name = false := by
                simp [devWithIrq, h3, h5]
              rw [hc] at hnum
              simp at hnum
              simp [periphNodes, h1, h2, h3, h4, h5, hnum, ih]

theorem infix_left_ext {α : Type} {p l : List α} (x : List α) (h : p <:+: l) :
    p <:+: x ++ l := by
  rcases h with ⟨s, t, rfl⟩
  exact ⟨x ++ s, t, by simp [List.append_assoc]⟩

theorem infix_right_ext {α : Type} {p l : List α} (y : List α) (h : p <:+: l) :
    p <:+: l ++ y := by
  rcases h with ⟨s, t, rfl⟩
  exact ⟨s, t ++ y, by simp [List.append_assoc]⟩

/-- Executable prefix test on character lists. -/
def isPre : List Char → List Char → Bool
  | [], _ => true
  | _ :: _, [] => false
  | a :: as, b :: bs => a == b && isPre as bs

/-- Executable substring test on character lists: does `pat` occur as a
contiguous run inside the second list? -/
def containsSub (pat : List Char) : List Char → Bool
  | [] => pat.isEmpty
  | c :: cs => isPre pat (c :: cs) || containsSub pat cs

theorem isPre_iff (pat : List Char) : ∀ l : List Char, isPre pat l = true ↔ pat <+: l := by
  induction pat with
  | nil => intro l; simp [isPre]
  | cons a as ih =>
    intro l
    cases l with
    | nil => simp [isPre]
    | cons b bs => simp [isPre, List.cons_prefix_cons, ih]

theorem containsSub_iff (pat : List Char) :
    ∀ l : List Char, containsSub pat l = true ↔ pat <:+: l := by
  intro l
  induction l with
  | nil => simp [containsSub, List.isEmpty_iff]
  | cons c cs ih =>
    simp [containsSub, isPre_iff, ih, List.infix_cons_iff]

/-- Claim C1: for every device inventory and every `coreCount >= 1`, the
count of `uart`/`net` devices found by the counting pass (`numIrqs`) equals
the number of interrupt indices actually assigned during the peripheral
emission pass — both as the length of the list of assigned indices and as
the final value of `ioDeviceNr` minus one — so the final
`assert ioDeviceNr-1 == numIrqs` never fails and `gen_riscv_dts` returns a
document (`isSome`) for every inventory. -/
theorem claim_C1_consistency (devices : List Device)
    (nCpus cpuFreq timeBaseFreq periphFreq : Nat) (timeStamp : String) (h : 1 ≤ nCpus) :
    ((periphNodes nCpus periphFreq (numIrqs devices) devices 1).filterMap
        assignedIrqIdx).length = numIrqs devices ∧
    (∀ s0 : String,
      (devices.foldl (periphStep nCpus periphFreq (numIrqs devices)) (s0, 1)).2 - 1 =
        numIrqs devices) ∧
    (gen_riscv_dts devices nCpus cpuFreq timeBaseFreq periphFreq timeStamp).isSome = true := by
  refine ⟨?_, ?_, ?_⟩
  · rw [periphNodes_irqIdx]
    simp
  · intro s0
    rw [periphFold_eq]
    omega
  · rw [gen_riscv_dts_eq devices nCpus cpuFreq timeBaseFreq periphFreq timeStamp h]
    rfl

/-- Witness for C1 at the spec's example inventory (one `mem`, one `uart`,
one `ariane_plic`) with one core. -/
theorem claim_C1_witness :
    ((periphNodes 1 50000000
        (numIrqs [⟨"mem", 2147483648, 536870912⟩, ⟨"uart", 65536, 4096⟩,
          ⟨"ariane_plic", 131072, 4096⟩])
        [⟨"mem", 2147483648, 536870912⟩, ⟨"uart", 65536, 4096⟩,
          ⟨"ariane_plic", 131072, 4096⟩] 1).filterMap assignedIrqIdx).length =
      numIrqs [⟨"mem", 2147483648, 536870912⟩, ⟨"uart", 65536, 4096⟩,
        ⟨"ariane_plic", 131072, 4096⟩] ∧
    (∀ s0 : String,
      (([⟨"mem", 2147483648, 536870912⟩, ⟨"uart", 65536, 4096⟩,
          ⟨"ariane_plic", 131072, 4096⟩] : List Device).foldl
          (periphStep 1 50000000
            (numIrqs [⟨"mem", 2147483648, 536870912⟩, ⟨"uart", 65536, 4096⟩,
              ⟨"ariane_plic", 131072, 4096⟩])) (s0, 1)).2 - 1 =
        numIrqs [⟨"mem", 2147483648, 536870912⟩, ⟨"uart", 65536, 4096⟩,
          ⟨"ariane_plic", 131072, 4096⟩]) ∧
    (gen_riscv_dts [⟨"mem", 2147483648, 536870912⟩, ⟨"uart", 65536, 4096⟩,
        ⟨"ariane_plic", 131072, 4096⟩] 1 50000000 390625 50000000 "ts").isSome = true :=
  claim_C1_consistency
    [⟨"mem", 2147483648, 536870912⟩, ⟨"uart", 65536, 4096⟩, ⟨"ariane_plic", 131072, 4096⟩]
    1 50000000 390625 50000000 "ts" (by norm_num)

/-- The interrupt-controller reference of core `k`: `&CPU<k>_intc`. -/
def intcRef (k : Nat) : String :=
  "&CPU" ++ decFmt k ++ "_intc"

/-- Claim C4: the CPU loop emits exactly one CPU node per core index
`0, ..., coreCount-1`, ascending, each index exactly once; and the CLINT
and PLIC `interrupts-extended` loops reference each core's interrupt
controller exactly twice, with lines 3 and 7 (CLINT) resp. 11 and 9
(PLIC), in ascending core order.  (`clintNode`/`plicNode` splice
`clintRouting`/`plicRouting` into the `interrupts-extended = <...>` field
by definition.) -/
theorem claim_C4_cpu_nodes (nCpus cpuFreq : Nat) (h : 1 ≤ nCpus) :
    (∀ s : String,
      (List.range nCpus).foldl (fun s k => s ++ cpuNode cpuFreq k) s =
        s ++ cpusSection nCpus cpuFreq) ∧
    cpusSection nCpus cpuFreq = concatStrs ((List.range nCpus).map (cpuNode cpuFreq)) ∧
    (List.range nCpus).length = nCpus ∧
    (∀ k, k < nCpus → (List.range nCpus).count k = 1) ∧
    List.Pairwise (· < ·) (List.range nCpus) ∧
    clintRouting nCpus =
      concatStrs ((List.range nCpus).map
        (fun k => intcRef k ++ " 3 " ++ intcRef k ++ " 7 ")) ∧
    plicRouting nCpus =
      concatStrs ((List.range nCpus).map
        (fun k => intcRef k ++ " 11 " ++ intcRef k ++ " 9 ")) := by
  refine ⟨?_, rfl, by simp, ?_, List.pairwise_lt_range nCpus, ?_, ?_⟩
  · intro s
    rw [foldl_append_concat]
    rfl
  · intro k hk
    exact List.count_eq_one_of_mem (List.nodup_range nCpus) (List.mem_range.mpr hk)
  · unfold clintRouting
    rw [foldl_append_concat, String.empty_append]
    congr 1
    refine List.map_congr_left fun k _ => ?_
    unfold clintRef intcRef
    simp only [String.append_assoc,
      show ("_intc 3 &CPU" : String) = "_intc" ++ (" 3 " ++ "&CPU") from rfl,
      show ("_intc 7 " : String) = "_intc" ++ " 7 " from rfl]
  · unfold plicRouting
    rw [foldl_append_concat, String.empty_append]
    congr 1
    refine List.map_congr_left fun k _ => ?_
    unfold plicRef intcRef
    simp only [String.append_assoc,
      show ("_intc 11 &CPU" : String) = "_intc" ++ (" 11 " ++ "&CPU") from rfl,
      show ("_intc 9 " : String) = "_intc" ++ " 9 " from rfl]

/-- Witness for C4 at two cores. -/
theorem claim_C4_witness :
    (∀ s : String,
      (List.range 2).foldl (fun s k => s ++ cpuNode 50000000 k) s =
        s ++ cpusSection 2 50000000) ∧
    cpusSection 2 50000000 = concatStrs ((List.range 2).map (cpuNode 50000000)) ∧
    (List.range 2).length = 2 ∧
    (∀ k, k < 2 → (List.range 2).count k = 1) ∧
    List.Pairwise (· < ·) (List.range 2) ∧
    clintRouting 2 =
      concatStrs ((List.range 2).map
        (fun k => intcRef k ++ " 3 " ++ intcRef k ++ " 7 ")) ∧
    plicRouting 2 =
      concatStrs ((List.range 2).map
        (fun k => intcRef k ++ " 11 " ++ intcRef k ++ " 9 ")) :=
  claim_C4_cpu_nodes 2 50000000 (by norm_num)

/-- Claim C5 counterexample: with two `mem` devices the builder emits two
memory nodes (one per entry, in inventory order), not a single node for
the last entry. -/
theorem claim_C5_counterexample :
    memNodes [⟨"mem", 0, 4096⟩, ⟨"mem", 65536, 8192⟩] ≠ memNode 65536 8192 ∧
    memNodes [⟨"mem", 0, 4096⟩, ⟨"mem", 65536, 8192⟩] =
      memNode 0 4096 ++ memNode 65536 8192 := by
  constructor
  · decide
  · decide

/-- Claim C5 amended: the builder emits one memory node per device named
`mem`, in inventory order, each node using that entry's own base/length
encoded with addressCells=2 and sizeCells=2 (so with exactly one `mem`
entry, exactly one node is emitted, with that entry's base and length). -/
theorem claim_C5_amended :
    (∀ devices : List Device,
      memNodes devices =
        concatStrs ((devices.filter (fun d => d.name = "mem")).map
          (fun d => memNode d.base d.length))) ∧
    (∀ b l : Nat,
      memNode b l =
        "\n    memory@" ++ hexPad8 b ++
          " \x7b\n        u-boot,dm-pre-reloc;\n        device_type = \"memory\";\n        reg = <" ++
          reg_fmt b l 2 2 ++ ">;\n    \x7d;\n            ") := by
  constructor
  · intro devices
    induction devices with
    | nil => rfl
    | cons d ds ih =>
      by_cases h : d.name = "mem"
      · simp [memNodes, List.filter_cons, h, concatStrs, ih]
      · simp [memNodes, List.filter_cons, h, concatStrs, ih, String.empty_append]
  · intro b l
    rfl

theorem plic_ref_in_uartNode (periphFreq addrBase addrLen ioDeviceNr : Nat) :
    "&PLIC0".data <:+: (uartNode periphFreq addrBase addrLen ioDeviceNr).data := by
  unfold uartNode
  simp only [String.data_append]
  apply infix_right_ext
  apply infix_right_ext
  apply infix_left_ext
  decide

theorem plic_ref_in_netNode (addrBase addrLen ioDeviceNr : Nat) :
    "&PLIC0".data <:+: (netNode addrBase addrLen ioDeviceNr).data := by
  unfold netNode
  simp only [String.data_append]
  apply infix_right_ext
  apply infix_right_ext
  apply infix_left_ext
  decide

theorem uartBase_default : ∀ (devices : List Device),
    (∀ d ∈ devices, d.name ≠ "uart") →
    ∀ b : Nat, devices.foldl (fun b d => if d.name = "uart" then d.base else b) b = b := by
  intro devices
  induction devices with
  | nil => intro _ b; rfl
  | cons d ds ih =>
    intro h b
    rw [List.foldl_cons, if_neg (h d (List.mem_cons_self d ds))]
    exact ih (fun x hx => h x (List.mem_cons_of_mem d hx)) b

theorem periphNodes_no_uart (nCpus periphFreq nIrqs : Nat) :
    ∀ (devices : List Device), (∀ d ∈ devices, d.name ≠ "uart") →
      ∀ (io : Nat), ∀ p ∈ periphNodes nCpus periphFreq nIrqs devices io,
        ∀ i : Nat, p.1 ≠ PeriphTag.uart i := by
  intro devices
  induction devices with
  | nil => intro _ io p hp; simp [periphNodes] at hp
  | cons d ds ih =>
    intro h io p hp i
    have hd : d.name ≠ "uart" := h d (List.mem_cons_self d ds)
    have hds : ∀ x ∈ ds, x.name ≠ "uart" := fun x hx => h x (List.mem_cons_of_mem d hx)
    simp only [periphNodes] at hp
    split_ifs at hp with h1 h2 h3 h4
    · rcases List.mem_cons.mp hp with rfl | hp'
      · simp
      · exact ih hds io p hp' i
    · rcases List.mem_cons.mp hp with rfl | hp'
      · simp
      · exact ih hds io p hp' i
    · rcases List.mem_cons.mp hp with rfl | hp'
      · simp
      · exact ih hds io p hp' i
    · rcases List.mem_cons.mp hp with rfl | hp'
      · simp
      · exact ih hds (io + 1) p hp' i
    · exact ih hds io p hp i

theorem periphNodes_no_plic (nCpus periphFreq nIrqs : Nat) :
    ∀ (devices : List Device), (∀ d ∈ devices, d.name ≠ "ariane_plic") →
      ∀ (io : Nat), ∀ p ∈ periphNodes nCpus periphFreq nIrqs devices io,
        p.1 ≠ PeriphTag.plic := by
  intro devices
  induction devices with
  | nil => intro _ io p hp; simp [periphNodes] at hp
  | cons d ds ih =>
    intro h io p hp
    have hd : d.name ≠ "ariane_plic" := h d (List.mem_cons_self d ds)
    have hds : ∀ x ∈ ds, x.name ≠ "ariane_plic" :=
      fun x hx => h x (List.mem_cons_of_mem d hx)
    simp only [periphNodes] at hp
    split_ifs at hp with h1 h2 h3 h4
    · rcases List.mem_cons.mp hp with rfl | hp'
      · simp
      · exact ih hds io p hp'
    · rcases List.mem_cons.mp hp with rfl | hp'
      · simp
      · exact ih hds (io + 1) p hp'
    · rcases List.mem_cons.mp hp with rfl | hp'
      · simp
      · exact ih hds io p hp'
    · rcases List.mem_cons.mp hp with rfl | hp'
      · simp
      · exact ih hds (io + 1) p hp'
    · exact ih hds io p hp

theorem periphNodes_plic_ref (nCpus periphFreq nIrqs : Nat) :
    ∀ (devices : List Device) (io : Nat),
      ∀ p ∈ periphNodes nCpus periphFreq nIrqs devices io,
        ∀ i : Nat, (p.1 = PeriphTag.uart i ∨ p.1 = PeriphTag.net i) →
          "&PLIC0".data <:+: p.2.data := by
  intro devices
  induction devices with
  | nil => intro io p hp; simp [periphNodes] at hp
  | cons d ds ih =>
    intro io p hp i hi
    simp only [periphNodes] at hp
    split_ifs at hp with h1 h2 h3 h4 h5
    · rcases List.mem_cons.mp hp with rfl | hp'
      · simp at hi
      · exact ih io p hp' i hi
    · rcases List.mem_cons.mp hp with rfl | hp'
      · simp at hi
      · exact ih io p hp' i hi
    · rcases List.mem_cons.mp hp with rfl | hp'
      · exact plic_ref_in_uartNode periphFreq d.base d.length io
      · exact ih (io + 1) p hp' i hi
    · rcases List.mem_cons.mp hp with rfl | hp'
      · simp at hi
      · exact ih io p hp' i hi
    · rcases List.mem_cons.mp hp with rfl | hp'
      · exact plic_ref_in_netNode d.base d.length io
      · exact ih (io + 1) p hp' i hi
    · exact ih io p hp i hi

/-- Claim C7 counterexample: for an inventory with no `uart` device the
builder does record the sentinel `0xDEADBEEF`, but the sentinel is never
emitted — the generated document contains neither the hex digits
`deadbeef` nor any `uart@` node at all (the recorded `uartBase` is simply
never used). -/
theorem claim_C7_counterexample :
    uartBaseOf [⟨"mem", 2147483648, 536870912⟩] = 3735928559 ∧
    ¬ ("deadbeef".data <:+:
      ((gen_riscv_dts [⟨"mem", 2147483648, 536870912⟩] 1 50000000 390625 50000000
        "").getD "").data) ∧
    ¬ ("uart@".data <:+:
      ((gen_riscv_dts [⟨"mem", 2147483648, 536870912⟩] 1 50000000 390625 50000000
        "").getD "").data) := by
  refine ⟨rfl, ?_, ?_⟩
  · rw [← containsSub_iff]
    decide
  · rw [← containsSub_iff]
    decide

/-- Claim C7 amended: when the inventory has no `uart` device, the
extraction pass records the sentinel `0xDEADBEEF` as `uartBase`, but the
recorded value is never used and no UART node is emitted: no chunk of the
peripheral emission pass comes from the UART branch, so the sentinel does
not appear in the produced document. -/
theorem claim_C7_amended (devices : List Device) (nCpus periphFreq nIrqs io : Nat)
    (h : ∀ d ∈ devices, d.name ≠ "uart") :
    uartBaseOf devices = 3735928559 ∧
    ∀ p ∈ periphNodes nCpus periphFreq nIrqs devices io,
      ∀ i : Nat, p.1 ≠ PeriphTag.uart i :=
  ⟨uartBase_default devices h 3735928559,
    periphNodes_no_uart nCpus periphFreq nIrqs devices h io⟩

/-- Witness for the amended C7 at a concrete uart-free inventory. -/
theorem claim_C7_witness :
    uartBaseOf [⟨"mem", 2147483648, 536870912⟩, ⟨"sd", 4096, 64⟩] = 3735928559 ∧
    ∀ p ∈ periphNodes 1 50000000 0 [⟨"mem", 2147483648, 536870912⟩, ⟨"sd", 4096, 64⟩] 1,
      ∀ i : Nat, p.1 ≠ PeriphTag.uart i :=
  claim_C7_amended [⟨"mem", 2147483648, 536870912⟩, ⟨"sd", 4096, 64⟩] 1 50000000 0 1
    (by decide)

/-- Claim C10: for an inventory with `uart`/`net` devices but no
`ariane_plic`, the builder still completes (`isSome`), interrupt indices
are still assigned as `1, 2, ...` ascending in inventory order, no chunk
comes from the PLIC branch (no PLIC node in the document), and every
emitted uart/ethernet chunk nevertheless contains the `&PLIC0`
interrupt-parent reference. -/
theorem claim_C10_no_plic (devices : List Device)
    (nCpus cpuFreq timeBaseFreq periphFreq : Nat) (timeStamp : String)
    (h : 1 ≤ nCpus) (hplic : ∀ d ∈ devices, d.name ≠ "ariane_plic")
    (hirq : 1 ≤ numIrqs devices) :
    (gen_riscv_dts devices nCpus cpuFreq timeBaseFreq periphFreq timeStamp).isSome = true ∧
    (periphNodes nCpus periphFreq (numIrqs devices) devices 1).filterMap assignedIrqIdx =
      List.range' 1 (numIrqs devices) ∧
    (∀ p ∈ periphNodes nCpus periphFreq (numIrqs devices) devices 1,
      p.1 ≠ PeriphTag.plic) ∧
    (∀ p ∈ periphNodes nCpus periphFreq (numIrqs devices) devices 1, ∀ i : Nat,
      (p.1 = PeriphTag.uart i ∨ p.1 = PeriphTag.net i) → "&PLIC0".data <:+: p.2.data) := by
  refine ⟨?_, periphNodes_irqIdx nCpus periphFreq (numIrqs devices) devices 1,
    periphNodes_no_plic nCpus periphFreq (numIrqs devices) devices hplic 1,
    periphNodes_plic_ref nCpus periphFreq (numIrqs devices) devices 1⟩
  rw [gen_riscv_dts_eq devices nCpus cpuFreq timeBaseFreq periphFreq timeStamp h]
  rfl

/-- Witness for C10 at a concrete inventory with one uart and one net and
no PLIC. -/
theorem claim_C10_witness :
    (gen_riscv_dts [⟨"uart", 65536, 4096⟩, ⟨"net", 98304, 4096⟩] 1 50000000 390625
      50000000 "ts").isSome = true ∧
    (periphNodes 1 50000000 (numIrqs [⟨"uart", 65536, 4096⟩, ⟨"net", 98304, 4096⟩])
        [⟨"uart", 65536, 4096⟩, ⟨"net", 98304, 4096⟩] 1).filterMap assignedIrqIdx =
      List.range' 1 (numIrqs [⟨"uart", 65536, 4096⟩, ⟨"net", 98304, 4096⟩]) ∧
    (∀ p ∈ periphNodes 1 50000000 (numIrqs [⟨"uart", 65536, 4096⟩, ⟨"net", 98304, 4096⟩])
        [⟨"uart", 65536, 4096⟩, ⟨"net", 98304, 4096⟩] 1,
      p.1 ≠ PeriphTag.plic) ∧
    (∀ p ∈ periphNodes 1 50000000 (numIrqs [⟨"uart", 65536, 4096⟩, ⟨"net", 98304, 4096⟩])
        [⟨"uart", 65536, 4096⟩, ⟨"net", 98304, 4096⟩] 1, ∀ i : Nat,
      (p.1 = PeriphTag.uart i ∨ p.1 = PeriphTag.net i) → "&PLIC0".data <:+: p.2.data) :=
  claim_C10_no_plic [⟨"uart", 65536, 4096⟩, ⟨"net", 98304, 4096⟩] 1 50000000 390625
    50000000 "ts" (by norm_num) (by decide) (by decide)

/-! ### `get_bootrom_info` (riscvlib.py lines 24-99)

The banner builder is embedded as a pure function returning the `info.h`
text (the file write on line 98 is an external effect).  The two external
version strings (subprocess results, lines 26-28) and the environment
variables are passed as parameters; `PROTOSYN_RUNTIME_BOARD` and
`CONFIG_SYS_FREQ` may be absent and are passed as `Option`s. -/

/-- Lines 36-41: the board name from `PROTOSYN_RUNTIME_BOARD`, falling back
to `'None (Simulation)'` when the variable is absent or falsy (for a
string, falsy means empty). -/
def boardNameOf : Option String → String
  | some b => if b = "" then "None (Simulation)" else b
  | none => "None (Simulation)"

/-- Line 45 computes `int(float(int(sysFreq))/1e6)`; the correctly rounded
binary64 quotient truncates to the integer quotient for every realistic
frequency (the rounding error of `n/1e6` is far below a half integer for
`n` up to tens of bits), so the conversion is modelled as exact integer
division by `10^6`. -/
def freqMHz (n : Nat) : Nat :=
  n / 1000000

/-- Lines 43-47: the frequency label from `CONFIG_SYS_FREQ`, falling back
to `"Unknown"` when the variable is absent. -/
def sysFreqOf : Option Nat → String
  | some f => decFmt (freqMHz f) ++ " MHz"
  | none => "Unknown"

/-- Lines 31-34: the length of the last device named `mem`, default 0. -/
def memLenOf (devices : List Device) : Nat :=
  devices.foldl (fun m d => if d.name = "mem" then d.length else m) 0

/-- Bit length of `n` (0 for 0), computed with structural fuel so that it
evaluates inside the kernel. -/
def bitLenAux : Nat → Nat → Nat
  | 0, _ => 0
  | f + 1, n => if n = 0 then 0 else bitLenAux f (n / 2) + 1

/-- Bit length of `n`: the number of binary digits, 0 for 0. -/
def bitLen (n : Nat) : Nat :=
  bitLenAux (n + 1) n

/-- The correctly rounded (round-to-nearest, ties-to-even) IEEE-754 binary64
value of the natural number `x`, as a natural number: `x` itself when it
fits in 53 significant bits, otherwise `x` rounded at the
`bitLen x - 53`-th bit. -/
def round53 (x : Nat) : Nat :=
  if x < 9007199254740992 then x
  else
    let k := bitLen x - 53
    let q := x / 2 ^ k
    let r := x % 2 ^ k
    if 2 * r > 2 ^ k ∨ (2 * r = 2 ^ k ∧ q % 2 = 1) then (q + 1) * 2 ^ k else q * 2 ^ k

/-- Line 88, `int(memLen/1024/1024)`, under CPython/IEEE-754 semantics:
`/` is binary64 true division and CPython's int/int division returns the
correctly rounded double of the exact quotient.  Dividing by the exact
power of two 1024 only decreases the exponent, so the two divisions
produce exactly `round53 memLen / 2^20` as a dyadic rational, and `int()`
truncates, giving `round53 memLen / 2^20` in integer arithmetic.  For
`memLen < 2^53` this is exactly `memLen / 2^20`. -/
def dramSizeMB (memLen : Nat) : Nat :=
  round53 memLen / (1024 * 1024)

/-- Python `"%3d" % n`: decimal digits padded on the left with spaces to a
minimum width of 3. -/
def padLeft3 (n : Nat) : String :=
  ⟨List.replicate (3 - (decFmt n).length) ' ' ++ (decFmt n).data⟩

/-- Head of the banner template (lines 49-59 of riscvlib.py), up to the
`FPGA Board:` substitution. -/
def infoHead (timeStamp pitonVer arianeVer : String) : String :=
  "// Info string generated with get_bootrom_info(...)\n// OpenPiton + Ariane framework\n// Date: " ++
  timeStamp ++
  "\n\nconst char info[] = \x7b\n\"\\r\\n\\r\\n\"\n\"----------------------------------------\\r\\n\"\n\"--     OpenPiton+Ariane Platform      --\\r\\n\"\n\"----------------------------------------\\r\\n\"\n\"OpenPiton Version: " ++
  pitonVer.take 8 ++
  "                   \\r\\n\"\n\"Ariane Version:    " ++
  arianeVer.take 8 ++
  "                   \\r\\n\"\n\"                                        \\r\\n\"\n\"FPGA Board:        "

/-- Middle of the banner template (lines 61-66), between the board name and
the `Core Freq:` substitution. -/
def infoMid (timeStamp : String) (xTiles yTiles numTiles : Nat) : String :=
  "                   \\r\\n\"\n\"Build Date:        " ++
  timeStamp ++
  "                   \\r\\n\"\n\"                                        \\r\\n\"\n\"#X-Tiles:          " ++
  decFmt xTiles ++
  "                   \\r\\n\"\n\"#Y-Tiles:          " ++
  decFmt yTiles ++
  "                   \\r\\n\"\n\"#Cores:            " ++
  decFmt numTiles ++
  "                   \\r\\n\"\n\"Core Freq:         "

/-- Tail of the banner template (lines 67-77), after the frequency label.
`dramMB` is the already-converted megabyte count of line 88; the cache
sizes are divided by 1024 as on lines 89-95 (exact in binary64 for any
realistic size, so modelled as integer division). -/
def infoTail (network : String) (dramMB l1iSize l1iAssoc l1dSize l1dAssoc l15Size l15Assoc l2Size l2Assoc : Nat) : String :=
  "                   \\r\\n\"\n\"Network:           " ++
  network ++
  "                   \\r\\n\"\n\"DRAM Size:         " ++
  decFmt dramMB ++
  " MB                \\r\\n\"\n\"                                        \\r\\n\"\n\"L1I Size / Assoc:  " ++
  padLeft3 (l1iSize / 1024) ++
  " kB / " ++
  decFmt l1iAssoc ++
  "          \\r\\n\"\n\"L1D Size / Assoc:  " ++
  padLeft3 (l1dSize / 1024) ++
  " kB / " ++
  decFmt l1dAssoc ++
  "          \\r\\n\"\n\"L15 Size / Assoc:  " ++
  padLeft3 (l15Size / 1024) ++
  " kB / " ++
  decFmt l15Assoc ++
  "          \\r\\n\"\n\"L2  Size / Assoc:  " ++
  padLeft3 (l2Size / 1024) ++
  " kB / " ++
  decFmt l2Assoc ++
  "          \\r\\n\"\n\"----------------------------------------\\r\\n\\r\\n\\r\\n\"\n\x7d;\n\n"

/-- `get_bootrom_info(devices, ...)` (lines 24-99): the generated `info.h`
text.  The `%`-substitution of the template on lines 49-96 is written as
the concatenation `infoHead ++ boardName ++ infoMid ++ sysFreq ++ infoTail`
with the 19 substituted values spliced in source order; `pitonVer` and
`arianeVer` stand for the version-control query results of lines 26-28
(truncated to 8 characters as by `[0:8]`). -/
def get_bootrom_info (devices : List Device) (pitonVer arianeVer : String)
    (envBoard : Option String) (envFreq : Option Nat)
    (xTiles yTiles numTiles : Nat) (network : String)
    (l1iSize l1iAssoc l1dSize l1dAssoc l15Size l15Assoc l2Size l2Assoc : Nat)
    (timeStamp : String) : String :=
  infoHead timeStamp pitonVer arianeVer ++
  boardNameOf envBoard ++
  infoMid timeStamp xTiles yTiles numTiles ++
  sysFreqOf envFreq ++
  infoTail network (dramSizeMB (memLenOf devices)) l1iSize l1iAssoc l1dSize l1dAssoc
    l15Size l15Assoc l2Size l2Assoc

/-- Claim C8: when the board variable is unset or empty the banner contains
the placeholder `None (Simulation)`; when the frequency variable is unset
the banner contains `Unknown`. -/
theorem claim_C8_banner_fallbacks (devices : List Device) (pitonVer arianeVer : String)
    (envBoard : Option String) (envFreq : Option Nat)
    (xTiles yTiles numTiles : Nat) (network : String)
    (l1iSize l1iAssoc l1dSize l1dAssoc l15Size l15Assoc l2Size l2Assoc : Nat)
    (timeStamp : String) :
    ((envBoard = none ∨ envBoard = some "") →
      "None (Simulation)".data <:+:
        (get_bootrom_info devices pitonVer arianeVer envBoard envFreq xTiles yTiles
          numTiles network l1iSize l1iAssoc l1dSize l1dAssoc l15Size l15Assoc l2Size
          l2Assoc timeStamp).data) ∧
    (envFreq = none →
      "Unknown".data <:+:
        (get_bootrom_info devices pitonVer arianeVer envBoard envFreq xTiles yTiles
          numTiles network l1iSize l1iAssoc l1dSize l1dAssoc l15Size l15Assoc l2Size
          l2Assoc timeStamp).data) := by
  constructor
  · intro hb
    have h1 : boardNameOf envBoard = "None (Simulation)" := by
      rcases hb with rfl | rfl <;> rfl
    unfold get_bootrom_info
    rw [h1]
    simp only [String.data_append]
    apply infix_right_ext
    apply infix_right_ext
    apply infix_right_ext
    apply infix_left_ext
    exact List.infix_refl _
  · intro hf
    have h1 : sysFreqOf envFreq = "Unknown" := by
      rw [hf]
      rfl
    unfold get_bootrom_info
    rw [h1]
    simp only [String.data_append]
    apply infix_right_ext
    apply infix_left_ext
    exact List.infix_refl _

/-- Witness for C8: both fallbacks at a concrete input with neither
variable set. -/
theorem claim_C8_witness :
    "None (Simulation)".data <:+:
      (get_bootrom_info [] "abcd1234" "ef567890" none none 1 1 1 "2dmesh" 16384 4 32768
        8 8192 8 65536 4 "ts").data ∧
    "Unknown".data <:+:
      (get_bootrom_info [] "abcd1234" "ef567890" none none 1 1 1 "2dmesh" 16384 4 32768
        8 8192 8 65536 4 "ts").data :=
  ⟨(claim_C8_banner_fallbacks [] "abcd1234" "ef567890" none none 1 1 1 "2dmesh" 16384 4
      32768 8 8192 8 65536 4 "ts").1 (Or.inl rfl),
    (claim_C8_banner_fallbacks [] "abcd1234" "ef567890" none none 1 1 1 "2dmesh" 16384 4
      32768 8 8192 8 65536 4 "ts").2 rfl⟩

/-- Claim C9 counterexample: the conversion of line 88 is Python 3 float
division, not integer division: at `memLen = 2^63 - 1` the banner prints
`8796093022208` (the quotient after the value is rounded to binary64),
while the mathematical floor of `memLen / 2^20` is `8796093022207`.  So the
conversion is not exact integer division over the full unsigned 64-bit
range. -/
theorem claim_C9_counterexample :
    dramSizeMB 9223372036854775807 = 8796093022208 ∧
    9223372036854775807 / (1024 * 1024) = 8796093022207 ∧
    dramSizeMB 9223372036854775807 ≠ 9223372036854775807 / (1024 * 1024) := by
  refine ⟨by decide, by decide, by decide⟩

/-- Claim C9 amended: the printed DRAM size equals the floor of
`memLen / 2^20` for every `memLen < 2^53` (where binary64 represents the
value exactly); beyond 2^53 the printed value is
`round53 memLen / 2^20`, which can differ from the floor. -/
theorem claim_C9_amended (memLen : Nat) (h : memLen < 9007199254740992) :
    dramSizeMB memLen = memLen / (1024 * 1024) := by
  unfold dramSizeMB round53
  rw [if_pos h]

/-- Witness for the amended C9 at 1 GiB. -/
theorem claim_C9_witness :
    (1073741824 : Nat) < 9007199254740992 ∧
    dramSizeMB 1073741824 = 1073741824 / (1024 * 1024) :=
  ⟨by norm_num, claim_C9_amended 1073741824 (by norm_num)⟩
